import Mathlib

/-!
# Verification of the Pokebot local-monitor core

Shallow embedding of the local-monitor service (HTTP client throttling and
retry, store locator, the two retailer monitors, and the result aggregator),
together with theorems settling the specification claims about it.

Conventions of the embedding:
* JavaScript strings are `String`; optional (possibly-`undefined`) fields are
  `Option _`; fractional mile distances are `ℚ`.
* Wall-clock instants and sleep durations are `Nat` milliseconds.
* A JavaScript `Map` keyed by strings is an association list
  `List (String × _)` with `Map.get`/`Map.set` semantics.
* Randomness (jitter) and I/O outcomes (per-attempt request results, per-term
  product lists) are parameters of the functions that consume them.
-/

namespace Pokebot

/-! ## Data model (store-locator.ts, retailers/bestbuy.ts, retailers/target.ts) -/

/-- `Store` from `store-locator.ts`. -/
structure Store where
  id : String
  name : String
  address : String
  city : String
  state : String
  zip : String
  phone : Option String
  distance : Option ℚ
  hours : Option String
  retailer : String
deriving DecidableEq

/-- `ProductMatch` from the retailer monitors. -/
structure ProductMatch where
  name : String
  price : Option String
  availability : String
  url : Option String
  sku : Option String
deriving DecidableEq

/-- `StockResult` from the retailer monitors; `lastChecked` is an abstract
timestamp. -/
structure StockResult where
  store : Store
  products : List ProductMatch
  hasStock : Bool
  lastChecked : Nat
deriving DecidableEq

/-! ## String helpers

Model of JavaScript `hay.includes(needle)` and `String.prototype.toLowerCase`
(the availability strings involved are ASCII, where `Char.toLower` agrees with
JavaScript). -/

/-- Does `pat` occur at the very start of `cs`? -/
def charsMatchAt : List Char → List Char → Bool
  | [], _ => true
  | _ :: _, [] => false
  | p :: ps, c :: cs => p == c && charsMatchAt ps cs

/-- Does `needle` occur anywhere in the character list? -/
def charsContain (needle : List Char) : List Char → Bool
  | [] => needle.isEmpty
  | c :: cs => charsMatchAt needle (c :: cs) || charsContain needle cs

/-- Model of `hay.toLowerCase().includes(needle)` for a lowercase `needle`. -/
def lowerIncludes (hay needle : String) : Bool :=
  charsContain needle.data (hay.data.map Char.toLower)

/-! ## Deduplication by SKU (retailers/bestbuy.ts:52-54, retailers/target.ts:291-293)

`result.products = result.products.filter((product, index, self) =>
   index === self.findIndex(p => p.sku === product.sku))`. -/

/-- `Array.prototype.filter` with the element index supplied to the callback,
starting at index `i`. -/
def jsFilterIdx {α : Type} (f : α → Nat → Bool) : List α → Nat → List α
  | [], _ => []
  | x :: xs, i =>
    if f x i then x :: jsFilterIdx f xs (i + 1) else jsFilterIdx f xs (i + 1)

/-- The monitors' SKU deduplication: keep an element exactly when its index
equals the first index holding its `sku` (JavaScript `===` on possibly-absent
`sku` values is equality of `Option String`). -/
def dedupBySku (ps : List ProductMatch) : List ProductMatch :=
  jsFilterIdx (fun p i => ps.findIdx? (fun q => q.sku == p.sku) == some i) ps 0

/-- Reference recursion for the same deduplication: drop an element whose
`sku` was already seen. Used only to reason about `dedupBySku`. -/
def filterSeen (seen : List (Option String)) : List ProductMatch → List ProductMatch
  | [] => []
  | p :: ps =>
    if seen.contains p.sku then filterSeen seen ps
    else p :: filterSeen (seen ++ [p.sku]) ps

/-! ## Availability classification and `hasStock` -/

namespace BestBuyMonitor

/-- The `inStoreAvailability` / `onlineAvailability` fields that
`BestBuyMonitor.determineAvailability` inspects: per-store pickup status and
online status. -/
structure BBProduct where
  inStoreAvailability : List (String × String)
  onlineAvailability : Option String
deriving DecidableEq

/-- `BestBuyMonitor.determineAvailability` (retailers/bestbuy.ts:145-162). -/
def determineAvailability (product : BBProduct) (storeId : String) : String :=
  let fromStore : Option String :=
    match product.inStoreAvailability.lookup storeId with
    | some status =>
      if status = "Available" then some "Available for pickup today"
      else if status = "LimitedStock" then some "Limited stock available"
      else none
    | none => none
  match fromStore with
  | some s => s
  | none =>
    if product.onlineAvailability = some "Available" then "Available online"
    else "Out of stock"

/-- The `hasStock` computation of `BestBuyMonitor.checkStoreInventory`
(retailers/bestbuy.ts:56-59): `available` or `pickup` markers only. -/
def hasStockOf (products : List ProductMatch) : Bool :=
  products.any fun p =>
    lowerIncludes p.availability "available" || lowerIncludes p.availability "pickup"

/-- Pure core of `BestBuyMonitor.checkStoreInventory`: merge the per-search-term
product lists, deduplicate by SKU, then derive `hasStock`. -/
def checkStoreInventory (store : Store) (now : Nat)
    (productsPerTerm : List (List ProductMatch)) : StockResult :=
  let deduped := dedupBySku productsPerTerm.flatten
  { store := store, products := deduped, hasStock := hasStockOf deduped,
    lastChecked := now }

end BestBuyMonitor

namespace TargetMonitor

/-- The `fulfillment_v2` subobject that `TargetMonitor.determineAvailability`
inspects; each field holds the `availability_status` string when present. -/
structure TgFulfillment where
  store_pick_up : Option String
  ship_to_store : Option String
  shipping : Option String
deriving DecidableEq

/-- `TargetMonitor.determineAvailability` (retailers/target.ts:359-386). -/
def determineAvailability (fulfillment : Option TgFulfillment) : String :=
  match fulfillment with
  | none => "Out of stock"
  | some f =>
    if f.store_pick_up = some "AVAILABLE" then "Available for store pickup"
    else if f.store_pick_up = some "LIMITED_STOCK" then "Limited stock - store pickup"
    else if f.ship_to_store = some "AVAILABLE" then "Available - ship to store"
    else if f.shipping = some "AVAILABLE" then "Available for shipping"
    else "Out of stock"

/-- The `hasStock` computation of `TargetMonitor.checkStoreInventory`
(retailers/target.ts:295-298): `available` or `in stock` markers only. -/
def hasStockOf (products : List ProductMatch) : Bool :=
  products.any fun p =>
    lowerIncludes p.availability "available" || lowerIncludes p.availability "in stock"

/-- Pure core of `TargetMonitor.checkStoreInventory`: merge the per-search-term
product lists, deduplicate by SKU, then derive `hasStock`. -/
def checkStoreInventory (store : Store) (now : Nat)
    (productsPerTerm : List (List ProductMatch)) : StockResult :=
  let deduped := dedupBySku productsPerTerm.flatten
  { store := store, products := deduped, hasStock := hasStockOf deduped,
    lastChecked := now }

end TargetMonitor

/-- Modelled from the spec: the spec's own wording of the `hasStock`
derivation ("true iff any surviving product's availability string contains an
available / in stock / pickup marker, case-insensitive"), written out for
comparison against the monitors' code. -/
def specHasStock (products : List ProductMatch) : Bool :=
  products.any fun p =>
    lowerIncludes p.availability "available" || lowerIncludes p.availability "in stock"
      || lowerIncludes p.availability "pickup"

/-! ## Result aggregator (notifier.ts) -/

/-- `StoreInfo` from `file-logger.ts`. -/
structure StoreInfo where
  id : String
  name : String
  retailer : String
  distance : ℚ
  address : String
  city : String
  state : String
  zip : String
  phone : Option String
  hours : Option String
  lastChecked : Option String
  totalChecks : Nat
  successfulChecks : Nat
deriving DecidableEq

/-- The key under which a store is tracked: `` `${store.retailer}-${store.id}` ``. -/
def storeKey (s : Store) : String := s.retailer ++ "-" ++ s.id

/-- JavaScript `Map.prototype.set` on an association list: replace the binding
in place if the key is present, append it otherwise. -/
def mapSet {β : Type} (k : String) (v : β) :
    List (String × β) → List (String × β)
  | [] => [(k, v)]
  | (k', v') :: rest =>
    if k' == k then (k, v) :: rest else (k', v') :: mapSet k v rest

/-- One iteration of the loop in `Notifier.updateStoreTracking`
(notifier.ts:92-127): upsert the `StoreInfo` for the result's store.
Note the asymmetry the code has: on an existing entry `successfulChecks` is
incremented when `result.hasStock || result.products.length > 0`, while a
freshly created entry starts with `successfulChecks` taken from
`result.hasStock` alone. -/
def trackResult (now : String) (stores : List (String × StoreInfo))
    (result : StockResult) : List (String × StoreInfo) :=
  let store := result.store
  let key := storeKey store
  match stores.lookup key with
  | some info =>
    mapSet key
      { info with
        lastChecked := some now
        totalChecks := info.totalChecks + 1
        successfulChecks :=
          info.successfulChecks +
            (if result.hasStock || decide (0 < result.products.length) then 1 else 0) }
      stores
  | none =>
    mapSet key
      { id := store.id, name := store.name, retailer := store.retailer
        distance := store.distance.getD 0, address := store.address
        city := store.city, state := store.state, zip := store.zip
        phone := store.phone, hours := store.hours
        lastChecked := some now, totalChecks := 1
        successfulChecks := if result.hasStock then 1 else 0 }
      stores

/-- `Notifier.updateStoreTracking`: fold the upsert over the whole batch (the
final `updateStores` file write is outside the model). -/
def updateStoreTracking (now : String) (stores : List (String × StoreInfo))
    (results : List StockResult) : List (String × StoreInfo) :=
  results.foldl (trackResult now) stores

/-! ## HTTP session manager (advanced-http-client.ts) -/

/-- `ClientConfig`, with the defaults merged in by the constructor. -/
structure ClientConfig where
  rotateUserAgents : Bool := true
  delayBetweenRequests : Nat := 2000
  maxRetries : Nat := 3
deriving DecidableEq

/-- `this.config.delayBetweenRequests || 2000`: a configured `0` is falsy in
JavaScript and falls back to the default. -/
def effMinDelay (cfg : ClientConfig) : Nat :=
  if cfg.delayBetweenRequests = 0 then 2000 else cfg.delayBetweenRequests

/-- `this.config.maxRetries || 3`: a configured `0` is falsy in JavaScript and
falls back to the default. -/
def effMaxRetries (cfg : ClientConfig) : Nat :=
  if cfg.maxRetries = 0 then 3 else cfg.maxRetries

/-- `AdvancedHttpClient.addDelay` (advanced-http-client.ts:87-98), as a clock
transformer: given the single client-wide `lastRequestTime` and the current
instant, return the instant at which execution resumes (which the code also
stores back into `lastRequestTime`). -/
def addDelay (minDelay lastRequestTime now : Nat) : Nat :=
  if now - lastRequestTime < minDelay then
    now + (minDelay - (now - lastRequestTime))
  else now

/-! ### Store locator response bodies

The body model carries exactly the observations `findBestBuyStores` makes of
`response.data`: truthiness, `Array.isArray`, a `.stores` field, the
`tcfb` json-graph navigation, and the embedded-JSON extraction from an HTML
string. Raw store records are mapped through the field-alias table of
`parseBestBuyStoreArray`. -/

/-- A raw store record as found in an upstream response, with the field
aliases `parseBestBuyStoreArray` accepts. -/
structure RawStore where
  storeNumber : Option String
  id : Option String
  storeId : Option String
  name : Option String
  longName : Option String
  storeName : Option String
  address : Option String
  address1 : Option String
  city : Option String
  state : Option String
  stateCode : Option String
  postalCode : Option String
  zip : Option String
  zipCode : Option String
  phone : Option String
  phoneNumber : Option String
  distance : Option ℚ
  distanceInMiles : Option ℚ
  hours : Option String
  storeHours : Option String
deriving DecidableEq

/-- `StoreLocator.parseBestBuyStoreArray` (store-locator.ts:100-115): map each
raw record through the alias chains (`a || b || c`; an all-absent alias chain
for a required string field is collapsed to `""` here, where the code would
carry `undefined` through its typed interface). -/
def parseBestBuyStoreArray (storeArray : List RawStore) : List Store :=
  storeArray.map fun s =>
    { id := (s.storeNumber.orElse fun _ => s.id.orElse fun _ => s.storeId).getD ""
      name := (s.name.orElse fun _ => s.longName.orElse fun _ => s.storeName).getD ""
      address := (s.address.orElse fun _ => s.address1).getD ""
      city := s.city.getD ""
      state := (s.state.orElse fun _ => s.stateCode).getD ""
      zip := (s.postalCode.orElse fun _ => s.zip.orElse fun _ => s.zipCode).getD ""
      phone := s.phone.orElse fun _ => s.phoneNumber
      distance := s.distance.orElse fun _ => s.distanceInMiles
      hours := some ((s.hours.orElse fun _ => s.storeHours).getD "Call for hours")
      retailer := "bestbuy" }

/-- Shape of `response.data` as observed by `findBestBuyStores`. `obj` records
both whether a `stores` field is present and what the `tcfb` json-graph path
navigation would find; `str` records what the embedded-JSON pattern scan of an
HTML body would find. -/
inductive BBBody where
  | nullish
  | jsonArr (stores : List RawStore)
  | obj (storesField : Option (List RawStore)) (tcfbNav : Option (List RawStore))
  | str (htmlNav : Option (List RawStore))
deriving DecidableEq

/-- JavaScript truthiness of `response.data` at the granularity of `BBBody`
(the empty string is folded into `nullish`). -/
def bbTruthy : BBBody → Bool
  | .nullish => false
  | _ => true

/-- `StoreLocator.parseBestBuyTcfbResponse` (store-locator.ts:117-140): the
json-graph path navigation either finds a store array or leaves the output
empty; its parse failures are caught locally. -/
def parseBestBuyTcfbResponse (body : BBBody) : List Store :=
  match body with
  | .obj _ (some raws) => parseBestBuyStoreArray raws
  | _ => []

/-- The non-tcfb parse chain of `findBestBuyStores` (store-locator.ts:81-90):
direct array, then `.stores` field, then embedded JSON in an HTML string. -/
def parseBestBuyOther (body : BBBody) : List Store :=
  match body with
  | .jsonArr raws => parseBestBuyStoreArray raws
  | .obj (some raws) _ => parseBestBuyStoreArray raws
  | .str (some raws) => parseBestBuyStoreArray raws
  | _ => []

/-- Response-shape dispatch of `findBestBuyStores` (store-locator.ts:78-90):
only the first candidate endpoint's URL contains `tcfb/model.json`, so the
endpoint index decides which parser runs. -/
def bbDispatch (idx : Nat) (body : BBBody) : List Store :=
  if idx = 0 then parseBestBuyTcfbResponse body else parseBestBuyOther body

/-- Outcome of one `httpClient.get` call for a candidate endpoint: either the
client threw (network failure, or ≥ 500 after all retries), or it returned a
response with a status `< 500` and a body. -/
structure HttpResponse where
  status : Nat
  body : BBBody
deriving DecidableEq

/-- The candidate-endpoint loop of `findBestBuyStores` (store-locator.ts:50-69):
accept the first endpoint whose request did not throw and whose response has
status 200 and truthy data; remember its index for the parse dispatch. -/
def firstSuccessAux (idx : Nat) :
    List (Except String HttpResponse) → Option (Nat × BBBody)
  | [] => none
  | .error _ :: rest => firstSuccessAux (idx + 1) rest
  | .ok r :: rest =>
    if r.status == 200 && bbTruthy r.body then some (idx, r.body)
    else firstSuccessAux (idx + 1) rest

/-- `StoreLocator.findBestBuyStores` (store-locator.ts:28-98) over the list of
per-endpoint outcomes, returning the parsed stores together with whether the
`console.error` in the catch block ran. If no endpoint yields a 200 with
truthy data the try block throws `All Best Buy endpoints failed`, which the
catch turns into `[]` plus an error log; a successful endpoint whose body
parses to nothing returns `[]` with no error log. -/
def findBestBuyStores (outcomes : List (Except String HttpResponse)) :
    List Store × Bool :=
  match firstSuccessAux 0 outcomes with
  | some (idx, body) => (bbDispatch idx body, false)
  | none => ([], true)

/-- An endpoint outcome that fails the acceptance test of the candidate loop:
the request threw, or the response is not a 200 with truthy data. -/
def endpointFails : Except String HttpResponse → Bool
  | .error _ => true
  | .ok r => !(r.status == 200 && bbTruthy r.body)

/-! ### The retry loop of `AdvancedHttpClient.get` (advanced-http-client.ts:139-167)

`for (let attempt = 1; attempt <= maxRetries; attempt++)`: try the request;
on success return the response; on failure remember the error and, when
attempts remain, sleep `2 ** attempt * 1000 + jitter` milliseconds; after the
loop throw the last error. The per-attempt outcome and the jitter drawn before
each backoff sleep are parameters. -/

/-- What one `AdvancedHttpClient.get` call did: its result, how many request
attempts it made, and the backoff sleeps (in ms) between attempts. -/
structure GetTrace where
  result : Except String HttpResponse
  attempts : Nat
  sleeps : List Nat

/-- The attempt loop of `AdvancedHttpClient.get`, at attempt number `idx` with
`remaining` attempts allowed and `lastErr` the error of the previous attempt. -/
def getLoop (outcome : Nat → Except String HttpResponse) (jitter : Nat → Nat)
    (lastErr : String) (idx : Nat) : Nat → GetTrace
  | 0 => ⟨.error lastErr, 0, []⟩
  | 1 =>
    match outcome idx with
    | .ok r => ⟨.ok r, 1, []⟩
    | .error e => ⟨.error e, 1, []⟩
  | n + 2 =>
    match outcome idx with
    | .ok r => ⟨.ok r, 1, []⟩
    | .error e =>
      let rest := getLoop outcome jitter e (idx + 1) (n + 1)
      ⟨rest.result, rest.attempts + 1, (2 ^ idx * 1000 + jitter idx) :: rest.sleeps⟩

/-- `AdvancedHttpClient.get` minus the throttling prologue: run the attempt
loop from attempt 1 up to the effective `maxRetries`. -/
def get (cfg : ClientConfig) (outcome : Nat → Except String HttpResponse)
    (jitter : Nat → Nat) : GetTrace :=
  getLoop outcome jitter "" 1 (effMaxRetries cfg)

/-! ### Request-issue timeline of `get` (for the throttling claim)

`get` first runs `addDelay` — which compares `Date.now()` against the single
client-wide `lastRequestTime`, sleeps any remainder of the minimum spacing,
and then overwrites `lastRequestTime` — and only then enters the attempt loop,
whose backoff sleeps never consult `lastRequestTime` again. The timeline below
records, for a call whose every attempt fails, the instants at which the
attempts are issued: attempt `i` fails after `durs i` ms and, when attempts
remain, the loop sleeps `2 ^ i * 1000 + jitter i` ms before attempt `i + 1`. -/

/-- Issue instants of `remaining` all-failing attempts starting with attempt
number `idx` at instant `a`, together with the instant at which the loop ends
(throwing the last error). -/
def attemptTimes (durs jitter : Nat → Nat) (idx a : Nat) : Nat → List Nat × Nat
  | 0 => ([], a)
  | 1 => ([a], a + durs idx)
  | n + 2 =>
    let next := a + durs idx + (2 ^ idx * 1000 + jitter idx)
    let rest := attemptTimes durs jitter (idx + 1) next (n + 1)
    (a :: rest.1, rest.2)

/-- Timeline of one `get` call made at instant `now` whose every attempt
fails: `addDelay` first enforces the spacing against `lastRequestTime` and
stores the resumption instant back into it, then the attempts run. Returns
(attempt issue instants, end instant of the call, new `lastRequestTime`). -/
def getCallTrace (cfg : ClientConfig) (durs jitter : Nat → Nat)
    (lastRequestTime now : Nat) : List Nat × Nat × Nat :=
  let a := addDelay (effMinDelay cfg) lastRequestTime now
  let t := attemptTimes durs jitter 1 a (effMaxRetries cfg)
  (t.1, t.2, a)

/-- Concrete two-call timeline used to examine the throttle property: both
calls are to the same domain through one client (the code keeps a single
`lastRequestTime` either way), every attempt fails instantly, jitter is zero,
and the second call is made the moment the first one throws. -/
def twoCallTrace : List Nat :=
  let c1 := getCallTrace {} (fun _ => 0) (fun _ => 0) 0 0
  let c2 := getCallTrace {} (fun _ => 0) (fun _ => 0) c1.2.2 c1.2.1
  c1.1 ++ c2.1

/-- `StoreLocator.findWalgreensStores` (store-locator.ts:333-337): not
implemented, always the empty list. -/
def findWalgreensStores : List Store := []

/-- The sort key of `findAllStores`: `store.distance || 0`. -/
def distanceOrZero (s : Store) : ℚ := s.distance.getD 0

/-- `StoreLocator.findAllStores` (store-locator.ts:339-359) given the three
per-retailer lookup results: concatenate, then
`sort((a, b) => (a.distance || 0) - (b.distance || 0))`. -/
def findAllStores (bestBuyStores targetStores : List Store) : List Store :=
  (bestBuyStores ++ targetStores ++ findWalgreensStores).mergeSort
    fun a b => decide (distanceOrZero a ≤ distanceOrZero b)

/-! ## Cycle orchestrator (store-locator.ts: `LocalMonitorService`) -/

/-- Observable side effects of `LocalMonitorService.stop`. -/
inductive MonitorEffect where
  | errorLog (msg : String)
  | statusLog (msg : String)
  | clearTimer (handle : Nat)
  | statusWrite (isRunning : Bool)
  | summaryWrite
deriving DecidableEq

/-- The orchestrator state `stop` touches: the `isRunning` flag and the
periodic-timer handle. -/
structure MonitorState where
  isRunning : Bool
  intervalId : Option Nat
deriving DecidableEq

namespace LocalMonitorService

/-- `LocalMonitorService.stop` (index.ts:454-470): reject with an error log
when not running; otherwise clear the flag, cancel the timer when one is set,
write the status snapshot and a final summary. -/
def stop (st : MonitorState) : MonitorState × List MonitorEffect :=
  if !st.isRunning then
    (st, [.errorLog "Local monitor is not running"])
  else
    let cleared : List MonitorEffect :=
      match st.intervalId with
      | some h => [.clearTimer h]
      | none => []
    ({ isRunning := false, intervalId := none },
      cleared ++
        [.statusWrite false, .statusLog "Local monitor stopped", .summaryWrite])

end LocalMonitorService

/-! ## Lemmas: the SKU deduplication -/

/-- `List.contains` on a seen set of optional SKUs is membership. -/
theorem containsSku_eq_decide_mem (seen : List (Option String)) (a : Option String) :
    seen.contains a = decide (a ∈ seen) := by
  rw [List.contains_eq_any_beq]
  by_cases hm : a ∈ seen
  · rw [decide_eq_true hm, List.any_eq_true]
    exact ⟨a, hm, by simp⟩
  · rw [decide_eq_false hm, List.any_eq_false]
    intro s hs
    simp only [beq_iff_eq]
    rintro rfl
    exact hm hs

/-- In `pre ++ x :: xs`, the first index whose `sku` equals `x.sku` is exactly
`pre.length` iff no element of `pre` carries `x.sku`. -/
theorem findIdx?_append_cons_self (pre xs : List ProductMatch) (x : ProductMatch) :
    ((pre ++ x :: xs).findIdx? (fun q => q.sku == x.sku) == some pre.length) =
      !(pre.map fun p => p.sku).contains x.sku := by
  rw [List.findIdx?_append, containsSku_eq_decide_mem]
  rcases h : pre.findIdx? (fun q => q.sku == x.sku) with _ | j
  · have hall := List.findIdx?_eq_none_iff.mp h
    have hm : x.sku ∉ pre.map fun p => p.sku := by
      rw [List.mem_map]
      rintro ⟨q, hq, hq'⟩
      have hf := hall q hq
      rw [beq_eq_false_iff_ne] at hf
      exact hf hq'
    have hhead : (x :: xs).findIdx? (fun q => q.sku == x.sku) = some 0 := by
      rw [List.findIdx?_cons]
      simp
    rw [h, hhead]
    simp [hm, Option.or]
  · have hj : j < pre.length :=
      (List.findIdx?_eq_some_iff_findIdx_eq.mp h).1
    have hm : x.sku ∈ pre.map fun p => p.sku := by
      have hs : (pre.findIdx? fun q => q.sku == x.sku).isSome = true := by
        rw [h]; rfl
      rw [List.findIdx?_isSome, List.any_eq_true] at hs
      obtain ⟨q, hq, hq'⟩ := hs
      rw [beq_iff_eq] at hq'
      exact List.mem_map.mpr ⟨q, hq, hq'⟩
    have hne : j ≠ pre.length := by omega
    rw [h]
    simp [hm, hne, Option.or]

/-- `filterSeen` depends on its seen set only through membership. -/
theorem filterSeen_congr :
    ∀ (xs : List ProductMatch) (s t : List (Option String)),
      (∀ a, a ∈ s ↔ a ∈ t) → filterSeen s xs = filterSeen t xs
  | [], _, _, _ => rfl
  | x :: xs, s, t, h => by
    rw [filterSeen, filterSeen, containsSku_eq_decide_mem, containsSku_eq_decide_mem,
      show decide (x.sku ∈ s) = decide (x.sku ∈ t) from decide_eq_decide.mpr (h x.sku)]
    cases hc : decide (x.sku ∈ t) with
    | true => simpa using filterSeen_congr xs s t h
    | false =>
      have htail := filterSeen_congr xs (s ++ [x.sku]) (t ++ [x.sku]) fun a => by
        rw [List.mem_append, List.mem_append, h a]
      simpa using htail

/-- The index-based JavaScript filter of `dedupBySku` agrees with the
seen-set recursion `filterSeen`, relative to an already-traversed prefix. -/
theorem jsFilterIdx_eq_filterSeen :
    ∀ (xs pre : List ProductMatch),
      jsFilterIdx
          (fun p i => (pre ++ xs).findIdx? (fun q => q.sku == p.sku) == some i)
          xs pre.length
        = filterSeen (pre.map fun p => p.sku) xs
  | [], _ => rfl
  | x :: xs, pre => by
    have hrec := jsFilterIdx_eq_filterSeen xs (pre ++ [x])
    rw [← List.append_cons] at hrec
    simp only [List.length_append, List.length_cons, List.length_nil,
      List.map_append, List.map_cons, List.map_nil] at hrec
    have hkey := findIdx?_append_cons_self pre xs x
    rw [jsFilterIdx, filterSeen, hkey]
    cases hc : ((pre.map fun p => p.sku).contains x.sku) with
    | false => simpa [hc] using hrec
    | true =>
      have hmem : x.sku ∈ pre.map fun p => p.sku := by
        rw [containsSku_eq_decide_mem] at hc
        exact of_decide_eq_true hc
      have hdup : filterSeen ((pre.map fun p => p.sku) ++ [x.sku]) xs
          = filterSeen (pre.map fun p => p.sku) xs := by
        apply filterSeen_congr
        intro a
        rw [List.mem_append]
        constructor
        · rintro (ha | ha)
          · exact ha
          · rw [List.mem_singleton] at ha
            exact ha ▸ hmem
        · exact Or.inl
      rw [hdup] at hrec
      simpa [hc] using hrec

/-- `dedupBySku` is the seen-set recursion started from an empty seen set. -/
theorem dedupBySku_eq_filterSeen (ps : List ProductMatch) :
    dedupBySku ps = filterSeen [] ps := by
  have h := jsFilterIdx_eq_filterSeen ps []
  simpa [dedupBySku] using h

/-- Every element surviving `filterSeen` has a `sku` outside the seen set, and
the surviving `sku`s are pairwise distinct. -/
theorem filterSeen_nodup :
    ∀ (xs : List ProductMatch) (seen : List (Option String)),
      ((filterSeen seen xs).map fun p => p.sku).Nodup ∧
        ∀ q ∈ filterSeen seen xs, q.sku ∉ seen
  | [], _ => by simp [filterSeen]
  | x :: xs, seen => by
    rw [filterSeen]
    cases hc : seen.contains x.sku with
    | true => simpa [hc] using filterSeen_nodup xs seen
    | false =>
      have hc' := hc
      rw [containsSku_eq_decide_mem] at hc'
      have hx : x.sku ∉ seen := of_decide_eq_false hc'
      have ih := filterSeen_nodup xs (seen ++ [x.sku])
      rw [if_neg (by simp)]
      refine ⟨?_, ?_⟩
      · rw [List.map_cons, List.nodup_cons]
        refine ⟨?_, ih.1⟩
        intro hmem
        rw [List.mem_map] at hmem
        obtain ⟨q, hq, hq'⟩ := hmem
        exact (ih.2 q hq) (hq' ▸ List.mem_append_right seen (by simp))
      · intro q hq
        rcases List.mem_cons.mp hq with rfl | hq'
        · exact hx
        · exact fun hmem => (ih.2 q hq') (List.mem_append_left [x.sku] hmem)

/-- Every `sku` occurring in the input either was already seen or is still
represented in the output of `filterSeen`. -/
theorem filterSeen_covers :
    ∀ (xs : List ProductMatch) (seen : List (Option String)) (p : ProductMatch),
      p ∈ xs → p.sku ∈ seen ∨ ∃ q ∈ filterSeen seen xs, q.sku = p.sku
  | [], _, _, h => absurd h (List.not_mem_nil _)
  | x :: xs, seen, p, h => by
    rw [filterSeen]
    cases hc : seen.contains x.sku with
    | true =>
      rw [if_pos rfl]
      rcases List.mem_cons.mp h with rfl | hmem
      · rw [containsSku_eq_decide_mem] at hc
        exact Or.inl (of_decide_eq_true hc)
      · exact filterSeen_covers xs seen p hmem
    | false =>
      rw [if_neg (by simp)]
      rcases List.mem_cons.mp h with rfl | hmem
      · exact Or.inr ⟨p, List.mem_cons_self .., rfl⟩
      · rcases filterSeen_covers xs (seen ++ [x.sku]) p hmem with hin | ⟨q, hq, hq'⟩
        · rcases List.mem_append.mp hin with hin | hin
          · exact Or.inl hin
          · rw [List.mem_singleton] at hin
            exact Or.inr ⟨x, List.mem_cons_self .., hin.symm⟩
        · exact Or.inr ⟨q, List.mem_cons_of_mem x hq, hq'⟩

/-- Every survivor of `filterSeen` is the first element of the input carrying
its `sku`. -/
theorem filterSeen_first :
    ∀ (xs : List ProductMatch) (seen : List (Option String)) (q : ProductMatch),
      q ∈ filterSeen seen xs → xs.find? (fun r => r.sku == q.sku) = some q
  | [], _, _, h => absurd h (List.not_mem_nil _)
  | x :: xs, seen, q, h => by
    rw [filterSeen] at h
    cases hc : seen.contains x.sku with
    | true =>
      rw [hc, if_pos rfl] at h
      have hq := filterSeen_first xs seen q h
      have hqs : q.sku ∉ seen := (filterSeen_nodup xs seen).2 q h
      have hxs : x.sku ∈ seen := by
        rw [containsSku_eq_decide_mem] at hc
        exact of_decide_eq_true hc
      have hne : (x.sku == q.sku) = false := by
        rw [beq_eq_false_iff_ne]
        exact fun e => hqs (e ▸ hxs)
      rw [List.find?_cons, hne]
      exact hq
    | false =>
      rw [hc, if_neg (by simp)] at h
      rcases List.mem_cons.mp h with rfl | h'
      · rw [List.find?_cons]
        simp
      · have hq := filterSeen_first xs (seen ++ [x.sku]) q h'
        have hqs : q.sku ∉ seen ++ [x.sku] :=
          (filterSeen_nodup xs (seen ++ [x.sku])).2 q h'
        have hne : (x.sku == q.sku) = false := by
          rw [beq_eq_false_iff_ne]
          intro e
          exact hqs (List.mem_append_right seen (by simp [e]))
        rw [List.find?_cons, hne]
        exact hq

/-! ## Lemmas: the aggregator map -/

/-- `mapSet` stores the new value under the written key. -/
theorem lookup_mapSet_self {β : Type} (k : String) (v : β) :
    ∀ m : List (String × β), (mapSet k v m).lookup k = some v
  | [] => by simp [mapSet, List.lookup]
  | (k', v') :: rest => by
    rw [mapSet]
    cases hb : (k' == k) with
    | true => simp [List.lookup]
    | false =>
      rw [if_neg (by simp [hb])]
      rw [List.lookup]
      have hb' : (k == k') = false := by
        rw [beq_eq_false_iff_ne] at hb ⊢
        exact fun e => hb e.symm
      rw [hb']
      exact lookup_mapSet_self k v rest

/-- `mapSet` leaves every other key unchanged. -/
theorem lookup_mapSet_ne {β : Type} (k k' : String) (v : β) (h : k' ≠ k) :
    ∀ m : List (String × β), (mapSet k v m).lookup k' = m.lookup k'
  | [] => by
    simp [mapSet, List.lookup,
      show (k' == k) = false from by rw [beq_eq_false_iff_ne]; exact h]
  | (k₀, v₀) :: rest => by
    rw [mapSet]
    cases hb : (k₀ == k) with
    | true =>
      rw [if_pos (by simp [hb])]
      rw [beq_iff_eq] at hb
      rw [List.lookup, List.lookup]
      rw [show (k' == k) = false from by rw [beq_eq_false_iff_ne]; exact h]
      rw [show (k' == k₀) = false from by
        rw [beq_eq_false_iff_ne]; exact fun e => h (hb ▸ e)]
    | false =>
      rw [if_neg (by simp [hb])]
      rw [List.lookup, List.lookup]
      cases hb' : (k' == k₀) with
      | true => rfl
      | false => exact lookup_mapSet_ne k k' v h rest

/-! ## Lemmas: the retry loop -/

/-- When every attempt fails, the attempt loop runs its full budget, sleeps
the exponential backoff between consecutive attempts, and ends with the last
attempt's error. -/
theorem getLoop_allFail (errs : Nat → String) (jitter : Nat → Nat) :
    ∀ (n : Nat) (idx : Nat) (lastErr : String), 1 ≤ n →
      getLoop (fun i => .error (errs i)) jitter lastErr idx n =
        ⟨.error (errs (idx + n - 1)), n,
          (List.range (n - 1)).map fun j => 2 ^ (idx + j) * 1000 + jitter (idx + j)⟩
  | 1, idx, lastErr, _ => by simp [getLoop]
  | n + 2, idx, lastErr, _ => by
    have ih := getLoop_allFail errs jitter (n + 1) (idx + 1) (errs idx) (by omega)
    simp only [getLoop, ih]
    have e1 : idx + 1 + (n + 1) - 1 = idx + (n + 2) - 1 := by omega
    rw [e1]
    have e2 : ((List.range (n + 2 - 1)).map fun j =>
          2 ^ (idx + j) * 1000 + jitter (idx + j))
        = (2 ^ idx * 1000 + jitter idx) ::
          ((List.range (n + 1 - 1)).map fun j =>
            2 ^ (idx + 1 + j) * 1000 + jitter (idx + 1 + j)) := by
      rw [show n + 2 - 1 = (n + 1 - 1) + 1 from by omega, List.range_succ_eq_map,
        List.map_cons, List.map_map]
      refine congrArg₂ _ (by simp) ?_
      apply List.map_congr_left
      intro j _
      have e3 : idx + (j + 1) = idx + 1 + j := by omega
      simp [Function.comp, e3]
    rw [e2]

/-- The effective retry budget is always at least one attempt. -/
theorem effMaxRetries_pos (cfg : ClientConfig) : 1 ≤ effMaxRetries cfg := by
  rw [effMaxRetries]
  split <;> omega

/-! ## Lemmas: throttling timeline -/

/-- `addDelay` never resumes earlier than one minimum spacing after the
recorded last-request time. -/
theorem addDelay_spacing (minDelay lastRequestTime now : Nat)
    (h : lastRequestTime ≤ now) :
    lastRequestTime + minDelay ≤ addDelay minDelay lastRequestTime now := by
  rw [addDelay]
  split <;> omega

/-- A nonempty failing attempt sequence issues its first request at its start
instant. -/
theorem attemptTimes_head (durs jitter : Nat → Nat) (idx a : Nat) :
    ∀ n : Nat, 1 ≤ n → (attemptTimes durs jitter idx a n).1.head? = some a
  | 1, _ => rfl
  | _ + 2, _ => rfl

/-! ## Lemmas: the candidate-endpoint loop -/

/-- When every endpoint outcome fails the acceptance test, the loop finds no
working endpoint. -/
theorem firstSuccessAux_eq_none :
    ∀ (outcomes : List (Except String HttpResponse)),
      (∀ o ∈ outcomes, endpointFails o = true) →
      ∀ idx, firstSuccessAux idx outcomes = none
  | [], _, _ => rfl
  | .error e :: rest, h, idx => by
    rw [firstSuccessAux]
    exact firstSuccessAux_eq_none rest (fun o ho => h o (List.mem_cons_of_mem _ ho)) (idx + 1)
  | .ok r :: rest, h, idx => by
    have hr := h (.ok r) (List.mem_cons_self ..)
    rw [endpointFails, Bool.not_eq_eq_eq_not, Bool.not_true] at hr
    rw [firstSuccessAux, hr, if_neg (by simp)]
    exact firstSuccessAux_eq_none rest (fun o ho => h o (List.mem_cons_of_mem _ ho)) (idx + 1)

/-! ## Sample data for witnesses and counterexamples -/

/-- A concrete Best Buy store. -/
def sampleStore : Store :=
  ⟨"123", "Holmdel", "2130 Route 35", "Holmdel", "NJ", "07733", none, some 2,
    none, "bestbuy"⟩

/-- A product with SKU `A1`. -/
def prodA1 : ProductMatch :=
  ⟨"Pokemon Booster", none, "In Stock", none, some "A1"⟩

/-- A different product that also carries SKU `A1`. -/
def prodA1dup : ProductMatch :=
  ⟨"Pokemon Booster Bundle", none, "Out of stock", none, some "A1"⟩

/-- A product with SKU `B2`. -/
def prodB2 : ProductMatch :=
  ⟨"Pokemon Tin", none, "In Stock", none, some "B2"⟩

/-! ## Claim theorems -/

/-- Claim C7: merging the per-term lists and deduplicating, the
`checkStoreInventory` output (either monitor) holds exactly one entry per
distinct `sku` value — survivors have pairwise-distinct `sku`s and every input
`sku` is represented — and each survivor equals the first occurrence of its
`sku` in merge order. -/
theorem c7_dedup_first_per_sku (store : Store) (now : Nat)
    (productsPerTerm : List (List ProductMatch)) :
    ((BestBuyMonitor.checkStoreInventory store now productsPerTerm).products =
        dedupBySku productsPerTerm.flatten ∧
      (TargetMonitor.checkStoreInventory store now productsPerTerm).products =
        dedupBySku productsPerTerm.flatten) ∧
    ((dedupBySku productsPerTerm.flatten).map fun p => p.sku).Nodup ∧
    (∀ p ∈ productsPerTerm.flatten,
      ∃ q ∈ dedupBySku productsPerTerm.flatten, q.sku = p.sku) ∧
    ∀ q ∈ dedupBySku productsPerTerm.flatten,
      productsPerTerm.flatten.find? (fun r => r.sku == q.sku) = some q := by
  refine ⟨⟨rfl, rfl⟩, ?_, ?_, ?_⟩
  · rw [dedupBySku_eq_filterSeen]
    exact (filterSeen_nodup productsPerTerm.flatten []).1
  · intro p hp
    rw [dedupBySku_eq_filterSeen]
    rcases filterSeen_covers productsPerTerm.flatten [] p hp with hin | hout
    · exact absurd hin (List.not_mem_nil _)
    · exact hout
  · intro q hq
    rw [dedupBySku_eq_filterSeen] at hq
    exact filterSeen_first productsPerTerm.flatten [] q hq

/-- Witness for C7 at the spec's scenario: `A1`, a duplicate `A1`, and `B2` —
the surviving `B2` entry is the first (and only) occurrence of that `sku`. -/
theorem c7_dedup_first_per_sku_witness :
    [prodA1, prodA1dup, prodB2].find? (fun r => r.sku == prodB2.sku) = some prodB2 :=
  (c7_dedup_first_per_sku sampleStore 0 [[prodA1, prodA1dup], [prodB2]]).2.2.2
    prodB2 (by decide)

/-- Auxiliary for claim C10: through `filterSeen`, at most one product without
a `sku` survives — none if `none` was already seen, otherwise exactly the
first sku-less product of the input. -/
theorem filterSeen_filter_isNone :
    ∀ (xs : List ProductMatch) (seen : List (Option String)),
      (filterSeen seen xs).filter (fun p => p.sku.isNone) =
        if (none : Option String) ∈ seen then []
        else (xs.filter fun p => p.sku.isNone).take 1
  | [], seen => by simp [filterSeen]
  | x :: xs, seen => by
    rw [filterSeen]
    cases hc : seen.contains x.sku with
    | true =>
      rw [if_pos rfl, filterSeen_filter_isNone xs seen]
      rcases hsku : x.sku with _ | s
      · have hmem : (none : Option String) ∈ seen := by
          rw [containsSku_eq_decide_mem, hsku] at hc
          exact of_decide_eq_true hc
        rw [if_pos hmem, if_pos hmem]
      · have hfx : x.sku.isNone = false := by rw [hsku]; rfl
        have hfilter : (x :: xs).filter (fun p => p.sku.isNone)
            = xs.filter fun p => p.sku.isNone := by
          rw [List.filter_cons, hfx]
          exact if_neg Bool.false_ne_true
        rw [hfilter]
    | false =>
      have hx : x.sku ∉ seen :=
        of_decide_eq_false (by rw [← containsSku_eq_decide_mem]; exact hc)
      rw [if_neg Bool.false_ne_true]
      rcases hsku : x.sku with _ | s
      · have hnone : (none : Option String) ∉ seen := hsku ▸ hx
        have hfx : x.sku.isNone = true := by rw [hsku]; rfl
        rw [List.filter_cons, hfx, if_pos rfl]
        rw [filterSeen_filter_isNone xs (seen ++ [(none : Option String)])]
        rw [if_pos (List.mem_append_right seen (by simp))]
        rw [if_neg hnone, List.filter_cons, hfx, if_pos rfl, List.take_succ_cons,
          List.take_zero]
      · have hfx : x.sku.isNone = false := by rw [hsku]; rfl
        rw [List.filter_cons, hfx, if_neg Bool.false_ne_true]
        rw [filterSeen_filter_isNone xs (seen ++ [some s])]
        have hiff : ((none : Option String) ∈ seen ++ [some s]) ↔
            ((none : Option String) ∈ seen) := by
          rw [List.mem_append]
          constructor
          · rintro (hm | hm)
            · exact hm
            · rw [List.mem_singleton] at hm
              exact absurd hm (by simp)
          · exact Or.inl
        have hfilter : (x :: xs).filter (fun p => p.sku.isNone)
            = xs.filter fun p => p.sku.isNone := by
          rw [List.filter_cons, hfx]
          exact if_neg Bool.false_ne_true
        rw [hfilter]
        by_cases hn : (none : Option String) ∈ seen
        · rw [if_pos (hiff.mpr hn), if_pos hn]
        · rw [if_neg (fun hm => hn (hiff.mp hm)), if_neg hn]

/-- Claim C10: all sku-less products compare equal under the dedup key, so at
most one sku-less product — the first in merge order — survives `dedupBySku`,
however distinct the products otherwise are. -/
theorem c10_skuless_collapse (ps : List ProductMatch) :
    (dedupBySku ps).filter (fun p => p.sku.isNone) =
      (ps.filter fun p => p.sku.isNone).take 1 := by
  rw [dedupBySku_eq_filterSeen, filterSeen_filter_isNone ps []]
  rw [if_neg (List.not_mem_nil _)]

/-- Claim C8: the store list returned by `findAllStores` is sorted
non-decreasingly by distance, a missing distance being treated as `0`. -/
theorem c8_findAllStores_sorted (bestBuyStores targetStores : List Store) :
    (findAllStores bestBuyStores targetStores).Sorted
      fun a b => distanceOrZero a ≤ distanceOrZero b := by
  have htrans : ∀ a b c : Store,
      decide (distanceOrZero a ≤ distanceOrZero b) = true →
      decide (distanceOrZero b ≤ distanceOrZero c) = true →
      decide (distanceOrZero a ≤ distanceOrZero c) = true := by
    intro a b c h1 h2
    rw [decide_eq_true_eq] at h1 h2 ⊢
    exact le_trans h1 h2
  have htotal : ∀ a b : Store,
      (decide (distanceOrZero a ≤ distanceOrZero b) ||
        decide (distanceOrZero b ≤ distanceOrZero a)) = true := by
    intro a b
    rcases le_total (distanceOrZero a) (distanceOrZero b) with h | h
    · rw [decide_eq_true h, Bool.true_or]
    · rw [decide_eq_true h, Bool.or_true]
  have hs := List.sorted_mergeSort htrans htotal
    (bestBuyStores ++ targetStores ++ findWalgreensStores)
  exact List.Pairwise.imp (fun hab => of_decide_eq_true hab) hs

/-- Claim C9: `stop()` on a non-running monitor only logs an error — the state
is untouched, no timer is cleared, and nothing is written; `stop()` on a
running monitor clears the flag, cancels exactly the pending timer (when one
is set), and writes the status snapshot and summary. -/
theorem c9_stop_behavior (st : MonitorState) :
    (st.isRunning = false →
      LocalMonitorService.stop st =
        (st, [.errorLog "Local monitor is not running"])) ∧
    (st.isRunning = true →
      (LocalMonitorService.stop st).1.isRunning = false ∧
      (LocalMonitorService.stop st).1.intervalId = none ∧
      (∀ h, st.intervalId = some h →
        MonitorEffect.clearTimer h ∈ (LocalMonitorService.stop st).2) ∧
      MonitorEffect.statusWrite false ∈ (LocalMonitorService.stop st).2 ∧
      MonitorEffect.summaryWrite ∈ (LocalMonitorService.stop st).2 ∧
      ∀ h, MonitorEffect.clearTimer h ∈ (LocalMonitorService.stop st).2 →
        st.intervalId = some h) := by
  refine ⟨fun h => ?_, fun h => ?_⟩
  · simp [LocalMonitorService.stop, h]
  · rcases hI : st.intervalId with _ | t
    · refine ⟨?_, ?_, ?_, ?_, ?_, ?_⟩ <;>
        simp [LocalMonitorService.stop, h, hI]
    · refine ⟨?_, ?_, ?_, ?_, ?_, ?_⟩ <;>
        simp [LocalMonitorService.stop, h, hI]

/-- Witness for C9: stopping a running monitor with timer handle `7` clears
the flag and cancels that timer. -/
theorem c9_stop_behavior_witness :
    (LocalMonitorService.stop ⟨true, some 7⟩).1.isRunning = false ∧
    MonitorEffect.clearTimer 7 ∈ (LocalMonitorService.stop ⟨true, some 7⟩).2 := by
  have h := (c9_stop_behavior ⟨true, some 7⟩).2 rfl
  exact ⟨h.1, h.2.2.1 7 rfl⟩

/-- A product that Best Buy's classifier marks available for pickup. -/
def prodPickup : ProductMatch :=
  ⟨"Pokemon 151", none, "Available for pickup today", none, some "P1"⟩

/-- A Target product whose availability text mentions only a pickup marker. -/
def prodTgLimited : ProductMatch :=
  ⟨"Pokemon Scarlet", none, "Limited stock - store pickup", none, some "T1"⟩

/-- A Target fulfillment object with store pickup available. -/
def tgFulfillAvail : TargetMonitor.TgFulfillment := ⟨some "AVAILABLE", none, none⟩

/-- A Target product carrying the classification of `tgFulfillAvail`. -/
def prodTgPickup : ProductMatch :=
  ⟨"Pokemon Prismatic", none, "Available for store pickup", none, some "T2"⟩

/-- Counterexample to claim C1 as stated: on the first sighting of a store, a
result with an empty `hasStock` flag but a non-empty product list creates a
`StoreInfo` whose `successfulChecks` is `0`, not `1` — the creation branch
consults `hasStock` alone. -/
theorem c1_counterexample :
    ((trackResult "2024-01-01T00:00:00Z" []
          ⟨sampleStore, [prodA1], false, 0⟩).lookup (storeKey sampleStore)).map
        (fun info => info.successfulChecks) = some 0 ∧
    (⟨sampleStore, [prodA1], false, 0⟩ : StockResult).hasStock = false ∧
    0 < (⟨sampleStore, [prodA1], false, 0⟩ : StockResult).products.length := by
  decide

/-- Claim C1 (amended): `updateStoreTracking` folds the per-result upsert over
the batch; each upsert bumps the existing entry's `totalChecks` by one,
overwrites `lastChecked`, and bumps `successfulChecks` exactly when `hasStock`
or the product list is non-empty — but a freshly created entry starts at
`totalChecks = 1` with `successfulChecks` taken from `hasStock` alone (a
first-sighting result with products and no stock counts `0`). Other keys are
untouched. -/
theorem c1_store_tracking_amended (now : String)
    (stores : List (String × StoreInfo)) (result : StockResult) :
    updateStoreTracking now stores [result] = trackResult now stores result ∧
    (∀ info, stores.lookup (storeKey result.store) = some info →
      (trackResult now stores result).lookup (storeKey result.store) =
        some { info with
          lastChecked := some now
          totalChecks := info.totalChecks + 1
          successfulChecks := info.successfulChecks +
            (if result.hasStock || decide (0 < result.products.length) then 1
              else 0) }) ∧
    (stores.lookup (storeKey result.store) = none →
      (trackResult now stores result).lookup (storeKey result.store) =
        some ⟨result.store.id, result.store.name, result.store.retailer,
          result.store.distance.getD 0, result.store.address,
          result.store.city, result.store.state, result.store.zip,
          result.store.phone, result.store.hours, some now, 1,
          if result.hasStock then 1 else 0⟩) ∧
    ∀ k, k ≠ storeKey result.store →
      (trackResult now stores result).lookup k = stores.lookup k := by
  refine ⟨rfl, ?_, ?_, ?_⟩
  · intro info hinfo
    simp only [trackResult, hinfo]
    exact lookup_mapSet_self _ _ stores
  · intro hnone
    simp only [trackResult, hnone]
    exact lookup_mapSet_self _ _ stores
  · intro k hk
    simp only [trackResult]
    rcases hl : stores.lookup (storeKey result.store) with _ | info <;>
      simp only [hl] <;>
      exact lookup_mapSet_ne _ k _ hk stores

/-- Witness for C1 (amended): a first sighting with stock creates an entry
with one total and one successful check. -/
theorem c1_store_tracking_amended_witness :
    (trackResult "t0" []
        ⟨sampleStore, [], true, 0⟩).lookup (storeKey sampleStore) =
      some ⟨"123", "Holmdel", "bestbuy", 2, "2130 Route 35", "Holmdel", "NJ",
        "07733", none, none, some "t0", 1, 1⟩ :=
  (c1_store_tracking_amended "t0" [] ⟨sampleStore, [], true, 0⟩).2.2.1 rfl

/-- Counterexample to claim C2 as stated: Target's own `hasStock` scan checks
only `available` / `in stock`, so its classification `Limited stock - store
pickup` (a `pickup` marker) yields `hasStock = false`; symmetrically Best
Buy's scan checks only `available` / `pickup`, so an `In Stock` availability
yields `hasStock = false`. The spec-worded derivation accepts both. -/
theorem c2_counterexample :
    (TargetMonitor.checkStoreInventory sampleStore 0 [[prodTgLimited]]).hasStock
        = false ∧
    specHasStock [prodTgLimited] = true ∧
    (BestBuyMonitor.checkStoreInventory sampleStore 0 [[prodA1]]).hasStock
        = false ∧
    specHasStock [prodA1] = true := by
  decide

/-- Claim C2 (amended): `hasStock` is true iff some surviving product's
availability contains, case-insensitively, one of that monitor's two markers:
`available` / `pickup` for Best Buy, `available` / `in stock` for Target. -/
theorem c2_hasStock_amended (store : Store) (now : Nat)
    (productsPerTerm : List (List ProductMatch)) :
    ((BestBuyMonitor.checkStoreInventory store now productsPerTerm).hasStock
        = true ↔
      ∃ p ∈ (BestBuyMonitor.checkStoreInventory store now productsPerTerm).products,
        lowerIncludes p.availability "available" = true ∨
          lowerIncludes p.availability "pickup" = true) ∧
    ((TargetMonitor.checkStoreInventory store now productsPerTerm).hasStock
        = true ↔
      ∃ p ∈ (TargetMonitor.checkStoreInventory store now productsPerTerm).products,
        lowerIncludes p.availability "available" = true ∨
          lowerIncludes p.availability "in stock" = true) := by
  constructor <;>
    simp [BestBuyMonitor.checkStoreInventory, TargetMonitor.checkStoreInventory,
      BestBuyMonitor.hasStockOf, TargetMonitor.hasStockOf, List.any_eq_true]

/-- Witness for C2 (amended): a surviving product marked available for pickup
turns Best Buy's `hasStock` on. -/
theorem c2_hasStock_amended_witness :
    (BestBuyMonitor.checkStoreInventory sampleStore 0 [[prodPickup]]).hasStock
      = true :=
  (c2_hasStock_amended sampleStore 0 [[prodPickup]]).1.mpr
    ⟨prodPickup, by decide, Or.inr (by decide)⟩

/-- Counterexample to claim C4 as stated: a fulfillment with
`store_pick_up.availability_status = "AVAILABLE"` classifies as `Available for
store pickup`, not as the claimed `Available for pickup today` (the latter is
Best Buy's in-store string, produced from a different field). -/
theorem c4_counterexample :
    TargetMonitor.determineAvailability (some ⟨some "AVAILABLE", none, none⟩)
        = "Available for store pickup" ∧
    TargetMonitor.determineAvailability (some ⟨some "AVAILABLE", none, none⟩)
        ≠ "Available for pickup today" := by
  decide

/-- Claim C4 (amended): a product whose fulfillment has
`store_pick_up.availability_status = "AVAILABLE"` classifies as `Available for
store pickup`, and a `StockResult` whose surviving products include such a
product has `hasStock = true`. -/
theorem c4_pickup_amended (f : TargetMonitor.TgFulfillment)
    (hf : f.store_pick_up = some "AVAILABLE")
    (store : Store) (now : Nat) (productsPerTerm : List (List ProductMatch))
    (p : ProductMatch)
    (hp : p ∈ (TargetMonitor.checkStoreInventory store now productsPerTerm).products)
    (hav : p.availability = TargetMonitor.determineAvailability (some f)) :
    TargetMonitor.determineAvailability (some f) = "Available for store pickup" ∧
    (TargetMonitor.checkStoreInventory store now productsPerTerm).hasStock
      = true := by
  have hda : TargetMonitor.determineAvailability (some f)
      = "Available for store pickup" := by
    rw [TargetMonitor.determineAvailability, if_pos hf]
  refine ⟨hda, ?_⟩
  have hmark : lowerIncludes p.availability "available" = true := by
    rw [hav, hda]
    decide
  simp only [TargetMonitor.checkStoreInventory] at hp ⊢
  rw [TargetMonitor.hasStockOf, List.any_eq_true]
  exact ⟨p, hp, by rw [hmark, Bool.true_or]⟩

/-- Witness for C4 (amended): the concrete fulfillment and product. -/
theorem c4_pickup_amended_witness :
    TargetMonitor.determineAvailability (some tgFulfillAvail)
        = "Available for store pickup" ∧
    (TargetMonitor.checkStoreInventory sampleStore 0 [[prodTgPickup]]).hasStock
      = true :=
  c4_pickup_amended tgFulfillAvail (by decide) sampleStore 0 [[prodTgPickup]]
    prodTgPickup (by decide) (by decide)

/-- Claim C5: with a positive configured `maxRetries`, a `get` whose every
attempt fails makes exactly `maxRetries` attempts, sleeps
`2 ^ attempt` seconds plus the drawn jitter between consecutive attempts, and
raises the last attempt's error — never more attempts. -/
theorem c5_retry_bound (cfg : ClientConfig) (errs : Nat → String)
    (jitter : Nat → Nat) (h : 1 ≤ cfg.maxRetries) :
    (get cfg (fun i => .error (errs i)) jitter).attempts = cfg.maxRetries ∧
    (get cfg (fun i => .error (errs i)) jitter).result
        = .error (errs cfg.maxRetries) ∧
    (get cfg (fun i => .error (errs i)) jitter).sleeps =
      (List.range (cfg.maxRetries - 1)).map fun j =>
        2 ^ (1 + j) * 1000 + jitter (1 + j) := by
  have heff : effMaxRetries cfg = cfg.maxRetries := by
    rw [effMaxRetries, if_neg (by omega)]
  simp only [get, heff, getLoop_allFail errs jitter cfg.maxRetries 1 "" h,
    show 1 + cfg.maxRetries - 1 = cfg.maxRetries from by omega]
  simp

/-- Witness for C5: the default config makes exactly three failing attempts
with backoffs of 2 s and 4 s, then raises. -/
theorem c5_retry_bound_witness :
    (get {} (fun _ => .error "boom") (fun _ => 0)).attempts = 3 ∧
    (get {} (fun _ => .error "boom") (fun _ => 0)).result = .error "boom" ∧
    (get {} (fun _ => .error "boom") (fun _ => 0)).sleeps =
      (List.range 2).map fun j => 2 ^ (1 + j) * 1000 + 0 :=
  c5_retry_bound {} (fun _ => "boom") (fun _ => 0) (by decide)

/-- Counterexample to claim C6 as stated: a candidate endpoint that answers
200 with a truthy but unrecognized (malformed) body makes `findBestBuyStores`
return the empty list with no error logged — the error log only accompanies
the all-endpoints-failed throw. -/
theorem c6_counterexample :
    findBestBuyStores [.ok ⟨200, .obj none none⟩] = ([], false) := by
  decide

/-- Claim C6 (amended): when every candidate endpoint fails at the HTTP level
(request threw, non-200 status, or empty body), `findBestBuyStores` returns
the empty list and logs an error instead of throwing; a malformed 200 body
also yields the empty list, but without the error log. -/
theorem c6_degradation_amended (outcomes : List (Except String HttpResponse))
    (h : ∀ o ∈ outcomes, endpointFails o = true) :
    findBestBuyStores outcomes = ([], true) := by
  rw [findBestBuyStores, firstSuccessAux_eq_none outcomes h 0]

/-- Witness for C6 (amended): every endpoint throwing HTTP 500 after retries
produces the empty list plus an error log. -/
theorem c6_degradation_amended_witness :
    findBestBuyStores [.error "HTTP 500", .error "HTTP 500", .error "HTTP 500",
      .error "HTTP 500"] = ([], true) :=
  c6_degradation_amended _ (by decide)

/-- Counterexample to claim C3 as stated: with the default configuration, two
back-to-back `get` calls whose attempts all fail instantly issue six requests
at 2000, 4000, 8000, 8000, 10000 and 14000 ms — the fourth request (first
attempt of the second call) follows the third (last retry of the first call)
by 0 ms, far less than the 2000 ms minimum spacing. -/
theorem c3_counterexample :
    twoCallTrace = [2000, 4000, 8000, 8000, 10000, 14000] ∧
    ¬ List.Chain' (fun t1 t2 => t1 + 2000 ≤ t2) twoCallTrace := by
  have ht : twoCallTrace = [2000, 4000, 8000, 8000, 10000, 14000] := by decide
  refine ⟨ht, ?_⟩
  rw [ht]
  intro hch
  have h3 : 8000 + 2000 ≤ 8000 := by
    rw [List.chain'_cons, List.chain'_cons, List.chain'_cons] at hch
    exact hch.2.2.1
  omega

/-- Claim C3 (amended): the client keeps a single `lastRequestTime` (shared
across domains), stamped when a call issues its first attempt; consequently
the first attempts of two consecutive `get` calls are at least the effective
minimum spacing apart, while retry attempts within a call are paced by the
backoff alone and escape the spacing check. -/
theorem c3_throttle_amended (cfg : ClientConfig)
    (durs jitter durs2 jitter2 : Nat → Nat)
    (lastRequestTime now now2 : Nat)
    (h2 : (getCallTrace cfg durs jitter lastRequestTime now).2.2 ≤ now2)
    (t1 t2 : Nat)
    (ht1 : (getCallTrace cfg durs jitter lastRequestTime now).1.head? = some t1)
    (ht2 : (getCallTrace cfg durs2 jitter2
        (getCallTrace cfg durs jitter lastRequestTime now).2.2 now2).1.head?
      = some t2) :
    t1 + effMinDelay cfg ≤ t2 := by
  have hh1 : (getCallTrace cfg durs jitter lastRequestTime now).1.head? =
      some (addDelay (effMinDelay cfg) lastRequestTime now) :=
    attemptTimes_head durs jitter 1 _ (effMaxRetries cfg) (effMaxRetries_pos cfg)
  have hh2 : (getCallTrace cfg durs2 jitter2
      (getCallTrace cfg durs jitter lastRequestTime now).2.2 now2).1.head? =
      some (addDelay (effMinDelay cfg)
        (getCallTrace cfg durs jitter lastRequestTime now).2.2 now2) :=
    attemptTimes_head durs2 jitter2 1 _ (effMaxRetries cfg) (effMaxRetries_pos cfg)
  rw [hh1] at ht1
  rw [hh2] at ht2
  have et1 := Option.some.inj ht1
  have et2 := Option.some.inj ht2
  have e22 : (getCallTrace cfg durs jitter lastRequestTime now).2.2 =
      addDelay (effMinDelay cfg) lastRequestTime now := rfl
  rw [e22, et1] at et2 h2
  rw [← et2]
  exact addDelay_spacing (effMinDelay cfg) t1 now2 h2

/-- Witness for C3 (amended): with the default config and a monotone clock,
the second call's first attempt at 4000 ms respects the 2000 ms spacing after
the first call's first attempt at 2000 ms. -/
theorem c3_throttle_amended_witness : 2000 + effMinDelay {} ≤ 4000 :=
  c3_throttle_amended {} (fun _ => 0) (fun _ => 0) (fun _ => 0) (fun _ => 0)
    0 0 2000 (by decide) 2000 4000 (by decide) (by decide)

end Pokebot
